import Mathlib

/-!
Verification of the static-map snapshot generator in `pdf_generator.py`.

This file gives a shallow embedding of the map pipeline:

* `latLonToTile` embeds `_lat_lon_to_tile` (lines 72-78).  Python's
  `math.log` raises `ValueError` on a non-positive argument, and that
  exception is caught by the enclosing handler of
  `generate_static_map_base64`, which then returns `None`; the embedding
  returns `none` exactly when the log argument is non-positive.  Float
  arithmetic is idealised as real arithmetic.
* `drawPinMarker` embeds `_draw_pin_marker` (lines 81-123) as the list of
  drawing commands issued to Pillow, in order.  Python's `//` on
  non-negative ints agrees with Lean's `Int` division used here.
* `tilesNeeded`, `startTileIdx`, `gridPositions`, `pasteTile`,
  `assembleTiles`, `pixelOfCenter`, `cropLeft`, `croppedImage` and
  `renderPipeline` embed the body of `generate_static_map_base64`
  (lines 126-194).  Tile fetching (network request, status check, PNG
  decode) is abstracted as a function `fetch : ℤ → ℤ → Option Img`;
  `none` stands for any failure at the tile boundary (non-200 status or
  an exception swallowed by the inner `try/except` at lines 163-171).
  `tile_size` is a local constant `256` in the source; it is a parameter
  here so that statements can quantify over it, and
  `generateStaticMapBase64` instantiates it with `tileSize = 256`.
* `crop` embeds `PIL.Image.crop`: per Pillow's documented semantics, a
  crop box extending beyond the source image is filled with zero pixels;
  `crop` is total and never raises.
* `paste` embeds `PIL.Image.paste` at a given offset.
* `generatePdfMapImage` embeds the map branch of `generate_pdf`
  (lines 736-742): Python truthiness makes `None` and `0.0` latitude or
  longitude skip map generation entirely.

Python `int()` truncates toward zero (`pytrunc` below); Python `%` on a
positive modulus and `//` agree with `Int.emod` and Lean's `Int`
division, as used throughout.
-/

namespace PowerScan

/-- An RGBA color, as used by Pillow in `pdf_generator.py`. -/
abbrev Color := ℕ × ℕ × ℕ × ℕ

/-- A raster image: dimensions and a pixel map.  Only pixels with
`0 ≤ x < width` and `0 ≤ y < height` are meaningful. -/
structure Img where
  width : ℤ
  height : ℤ
  px : ℤ → ℤ → Color

/-- The background fill `(240, 240, 240, 255)` used for the composite
canvas at line 147. -/
def background : Color := (240, 240, 240, 255)

/-- The transparent zero pixel Pillow uses to pad a crop box that
extends beyond the source image. -/
def zeroPixel : Color := (0, 0, 0, 0)

/-- `Image.new('RGBA', (w, h), c)`: a constant image. -/
def Img.const (w h : ℤ) (c : Color) : Img :=
  { width := w, height := h, px := fun _ _ => c }

/-- `canvas.paste(tile, (x0, y0))`: overwrite the rectangle of `tile`'s
size at offset `(x0, y0)`. -/
def paste (canvas tile : Img) (x0 y0 : ℤ) : Img :=
  { width := canvas.width, height := canvas.height,
    px := fun x y =>
      if x0 ≤ x ∧ x < x0 + tile.width ∧ y0 ≤ y ∧ y < y0 + tile.height then
        tile.px (x - x0) (y - y0)
      else canvas.px x y }

/-- `img.crop((left, top, right, bottom))`: an image of size
`(right - left) × (bottom - top)`; pixels sampled outside the source
are zero-filled (Pillow pads, it does not raise). -/
def crop (img : Img) (left top right bottom : ℤ) : Img :=
  { width := right - left, height := bottom - top,
    px := fun x y =>
      if 0 ≤ left + x ∧ left + x < img.width ∧ 0 ≤ top + y ∧ top + y < img.height then
        img.px (left + x) (top + y)
      else zeroPixel }

/-- Python `int()` on a real value: truncation toward zero. -/
noncomputable def pytrunc (x : ℝ) : ℤ := if 0 ≤ x then ⌊x⌋ else ⌈x⌉

/-- Lines 74-78 of `_lat_lon_to_tile`, minus the error handling:
`lat_rad = radians(lat)`, `n = 2 ** zoom`,
`x = (lon + 180) / 360 * n`,
`y = (1 - log(tan(lat_rad) + 1 / cos(lat_rad)) / pi) / 2 * n`. -/
noncomputable def latLonToTile (lat lon : ℝ) (zoom : ℕ) : Option (ℝ × ℝ) :=
  if Real.tan (lat * Real.pi / 180) + 1 / Real.cos (lat * Real.pi / 180) ≤ 0 then
    none
  else
    some ((lon + 180) / 360 * 2 ^ zoom,
      (1 - Real.log (Real.tan (lat * Real.pi / 180) + 1 / Real.cos (lat * Real.pi / 180))
          / Real.pi) / 2 * 2 ^ zoom)

/-- The Web-Mercator tiling transform exactly as the specification words
it: `n = 2^zoom`; `x = (lon + 180) / 360 · n`;
`y = (1 − ln(tan(latRad) + sec(latRad)) / π) / 2 · n`, with
`sec t = 1 / cos t`.  Stated independently of `latLonToTile` so the two
can be compared. -/
noncomputable def webMercatorSpec (lat lon : ℝ) (zoom : ℕ) : ℝ × ℝ :=
  ((lon + 180) / 360 * 2 ^ zoom,
   (1 - Real.log (Real.tan (lat * Real.pi / 180) + 1 / Real.cos (lat * Real.pi / 180))
       / Real.pi) / 2 * 2 ^ zoom)

/-- One drawing command issued to `PIL.ImageDraw`. -/
inductive Shape where
  | ellipse (x0 y0 x1 y1 : ℤ) (fill : Color) (outline : Option (Color × ℤ))
  | polygon (pts : List (ℤ × ℤ)) (fill : Color)

/-- `_draw_pin_marker` (lines 81-123): the five drawing commands, in
source order, with `pin_top = cy - size`, `pin_bottom = cy`,
`pin_w = size // 2`, `shadow_offset = 2`, `inner_r = size // 5`,
`dot_r = size // 8`. -/
def drawPinMarker (cx cy : ℤ) (color : Color) (size : ℤ) : List Shape :=
  [ Shape.ellipse (cx - size / 2 + 2) (cy - size + 2)
      (cx + size / 2 + 2) (cy - size + size * 2 / 3 + 2) (0, 0, 0, 60) none,
    Shape.ellipse (cx - size / 2) (cy - size)
      (cx + size / 2) (cy - size + size * 2 / 3) color (some ((255, 255, 255, 255), 2)),
    Shape.polygon
      [(cx - size / 2 / 2, cy - size + size / 3), (cx, cy),
       (cx + size / 2 / 2, cy - size + size / 3)] color,
    Shape.ellipse (cx - size / 5) (cy - size + size / 6)
      (cx + size / 5) (cy - size + size / 6 + size / 5 * 2) (255, 255, 255, 230) none,
    Shape.ellipse (cx - size / 8) (cy - size + size / 6 + (size / 5 - size / 8))
      (cx + size / 8) (cy - size + size / 6 + (size / 5 + size / 8)) color none ]

/-- Line 131: the tile size constant of `generate_static_map_base64`. -/
def tileSize : ℤ := 256

/-- Lines 137-138: `math.ceil(dim / tile_size) + 1` tiles per axis. -/
def tilesNeeded (dim ts : ℤ) : ℤ := ⌈(dim : ℚ) / (ts : ℚ)⌉ + 1

/-- Lines 141-142: `int(center) - tiles // 2`, the starting tile index
on one axis. -/
noncomputable def startTileIdx (center : ℝ) (dim ts : ℤ) : ℤ :=
  pytrunc center - tilesNeeded dim ts / 2

/-- The nested loops at lines 151-152: grid positions `(tx, ty)` with
`0 ≤ tx < tilesX` and `0 ≤ ty < tilesY`, in iteration order. -/
def gridPositions (tilesX tilesY : ℤ) : List (ℤ × ℤ) :=
  (List.range tilesX.toNat).flatMap fun tx =>
    (List.range tilesY.toNat).map fun ty => ((tx : ℤ), (ty : ℤ))

/-- Lines 153-171, one loop iteration: wrap the x index modulo
`n = 2 ^ zoom`, skip y indices outside `[0, n)`, fetch, and paste a
successful tile at `(tx * ts, ty * ts)`; a failed fetch leaves the
canvas unchanged. -/
def pasteTile (fetch : ℤ → ℤ → Option Img) (zoom : ℕ) (stx sty ts : ℤ)
    (canvas : Img) (p : ℤ × ℤ) : Img :=
  if sty + p.2 < 0 ∨ (2 : ℤ) ^ zoom ≤ sty + p.2 then canvas
  else
    match fetch ((stx + p.1) % 2 ^ zoom) (sty + p.2) with
    | some t => paste canvas t (p.1 * ts) (p.2 * ts)
    | none => canvas

/-- The whole tile-download loop (lines 150-171), folding `pasteTile`
over the grid. -/
def assembleTiles (fetch : ℤ → ℤ → Option Img) (zoom : ℕ)
    (stx sty ts tilesX tilesY : ℤ) (canvas : Img) : Img :=
  (gridPositions tilesX tilesY).foldl (pasteTile fetch zoom stx sty ts) canvas

/-- The tile addresses for which a fetch is attempted (a URL is built and
requested at line 162): y indices outside `[0, n)` are dropped, x indices
are wrapped modulo `n`. -/
def fetchedAddresses (zoom : ℕ) (stx sty tilesX tilesY : ℤ) : List (ℤ × ℤ) :=
  (gridPositions tilesX tilesY).filterMap fun p =>
    if sty + p.2 < 0 ∨ (2 : ℤ) ^ zoom ≤ sty + p.2 then none
    else some ((stx + p.1) % 2 ^ zoom, sty + p.2)

/-- Lines 144-171 composed: the assembled composite canvas, starting from
the background-filled `Image.new` of size
`(tilesX · ts) × (tilesY · ts)`. -/
noncomputable def assembled (fetch : ℤ → ℤ → Option Img) (cX cY : ℝ)
    (zoom : ℕ) (w h ts : ℤ) : Img :=
  assembleTiles fetch zoom (startTileIdx cX w ts) (startTileIdx cY h ts) ts
    (tilesNeeded w ts) (tilesNeeded h ts)
    (Img.const (tilesNeeded w ts * ts) (tilesNeeded h ts * ts) background)

/-- Lines 174-175: `int((center - start_tile) * tile_size)`, the pixel
position of the center point within the composite. -/
noncomputable def pixelOfCenter (center : ℝ) (dim ts : ℤ) : ℤ :=
  pytrunc ((center - startTileIdx center dim ts) * ts)

/-- Lines 178-179: `pixel - dim // 2`, the left (resp. top) edge of the
crop rectangle. -/
noncomputable def cropLeft (center : ℝ) (dim ts : ℤ) : ℤ :=
  pixelOfCenter center dim ts - dim / 2

/-- Lines 177-183: crop the composite to `w × h`, centered on the target
point; `right = left + w`, `bottom = top + h`. -/
noncomputable def croppedImage (fetch : ℤ → ℤ → Option Img) (cX cY : ℝ)
    (zoom : ℕ) (w h ts : ℤ) : Img :=
  crop (assembled fetch cX cY zoom w h ts)
    (cropLeft cX w ts) (cropLeft cY h ts)
    (cropLeft cX w ts + w) (cropLeft cY h ts + h)

/-- Lines 144-187: the post-projection pipeline; the result is the
cropped image together with the marker commands drawn onto it
(`_draw_pin_marker(draw, width // 2, height // 2, color, size=36)`).
Drawing mutates pixels in place and does not change dimensions. -/
noncomputable def renderPipeline (fetch : ℤ → ℤ → Option Img) (cX cY : ℝ)
    (zoom : ℕ) (w h ts : ℤ) (pinColor : Color) : Img × List Shape :=
  (croppedImage fetch cX cY zoom w h ts,
   drawPinMarker (w / 2) (h / 2) pinColor 36)

/-- `generate_static_map_base64` (lines 126-197): project, then run the
pipeline with `tile_size = 256`; a projection failure is caught by the
enclosing handler, which returns `None`. -/
noncomputable def generateStaticMapBase64 (fetch : ℤ → ℤ → Option Img)
    (lat lon : ℝ) (zoom : ℕ) (w h : ℤ) (pinColor : Color) :
    Option (Img × List Shape) :=
  (latLonToTile lat lon zoom).map fun c =>
    renderPipeline fetch c.1 c.2 zoom w h tileSize pinColor

/-- The map branch of `generate_pdf` (lines 736-742):
`if measure.latitude and measure.longitude:` — Python truthiness treats
both `None` and `0.0` as false, so the generator `gen` is only invoked
when both coordinates are present and nonzero; otherwise `map_img_b64`
stays `None`. -/
def generatePdfMapImage {α : Type} (latitude longitude : Option ℚ)
    (gen : ℚ → ℚ → Option α) : Option α :=
  match latitude, longitude with
  | some la, some lo => if la = 0 ∨ lo = 0 then none else gen la lo
  | _, _ => none

/-! ### Helper lemmas -/

/-- For `-90 < lat < 90`, the argument of the logarithm in the
projection, `tan(latRad) + 1 / cos(latRad) = (sin(latRad) + 1) / cos(latRad)`,
is strictly positive: `math.log` does not raise. -/
theorem logArg_pos {lat : ℝ} (h1 : -90 < lat) (h2 : lat < 90) :
    0 < Real.tan (lat * Real.pi / 180) + 1 / Real.cos (lat * Real.pi / 180) := by
  have hpi : (0 : ℝ) < Real.pi := Real.pi_pos
  have hlo : -(Real.pi / 2) < lat * Real.pi / 180 := by nlinarith
  have hhi : lat * Real.pi / 180 < Real.pi / 2 := by nlinarith
  have hc : 0 < Real.cos (lat * Real.pi / 180) :=
    Real.cos_pos_of_mem_Ioo ⟨hlo, hhi⟩
  have hs : 0 < Real.sin (lat * Real.pi / 180) + 1 := by
    rcases lt_or_eq_of_le (Real.neg_one_le_sin (lat * Real.pi / 180)) with h | h
    · linarith
    · exfalso
      have hsq := Real.sin_sq_add_cos_sq (lat * Real.pi / 180)
      rw [← h] at hsq
      nlinarith
  rw [Real.tan_eq_sin_div_cos]
  have hrw : Real.sin (lat * Real.pi / 180) / Real.cos (lat * Real.pi / 180)
      + 1 / Real.cos (lat * Real.pi / 180)
      = (Real.sin (lat * Real.pi / 180) + 1) / Real.cos (lat * Real.pi / 180) := by
    field_simp
  rw [hrw]
  positivity

/-- The projection succeeds for every latitude strictly between -90 and 90. -/
theorem latLonToTile_eq_some {lat : ℝ} (lon : ℝ) (zoom : ℕ)
    (h1 : -90 < lat) (h2 : lat < 90) :
    latLonToTile lat lon zoom =
      some ((lon + 180) / 360 * 2 ^ zoom,
        (1 - Real.log (Real.tan (lat * Real.pi / 180)
            + 1 / Real.cos (lat * Real.pi / 180)) / Real.pi) / 2 * 2 ^ zoom) := by
  unfold latLonToTile
  rw [if_neg (not_le.mpr (logArg_pos h1 h2))]

/-- `pytrunc` on a non-negative real is the floor. -/
theorem pytrunc_of_nonneg {x : ℝ} (h : 0 ≤ x) : pytrunc x = ⌊x⌋ := if_pos h

/-- One `pasteTile` step never changes the canvas dimensions. -/
theorem pasteTile_width (fetch : ℤ → ℤ → Option Img) (zoom : ℕ)
    (stx sty ts : ℤ) (canvas : Img) (p : ℤ × ℤ) :
    (pasteTile fetch zoom stx sty ts canvas p).width = canvas.width ∧
    (pasteTile fetch zoom stx sty ts canvas p).height = canvas.height := by
  unfold pasteTile
  split
  · exact ⟨rfl, rfl⟩
  · cases fetch ((stx + p.1) % 2 ^ zoom) (sty + p.2) <;> exact ⟨rfl, rfl⟩

/-- Folding `pasteTile` over any position list preserves dimensions. -/
theorem foldl_pasteTile_width (fetch : ℤ → ℤ → Option Img) (zoom : ℕ)
    (stx sty ts : ℤ) (l : List (ℤ × ℤ)) (canvas : Img) :
    (l.foldl (pasteTile fetch zoom stx sty ts) canvas).width = canvas.width ∧
    (l.foldl (pasteTile fetch zoom stx sty ts) canvas).height = canvas.height := by
  induction l generalizing canvas with
  | nil => exact ⟨rfl, rfl⟩
  | cons p l ih =>
    rw [List.foldl_cons]
    rcases ih (pasteTile fetch zoom stx sty ts canvas p) with ⟨hw, hh⟩
    rcases pasteTile_width fetch zoom stx sty ts canvas p with ⟨hw', hh'⟩
    exact ⟨hw.trans hw', hh.trans hh'⟩

/-- The assembled composite has the dimensions of the fresh canvas:
`(tilesX · ts) × (tilesY · ts)`. -/
theorem assembled_width (fetch : ℤ → ℤ → Option Img) (cX cY : ℝ)
    (zoom : ℕ) (w h ts : ℤ) :
    (assembled fetch cX cY zoom w h ts).width = tilesNeeded w ts * ts ∧
    (assembled fetch cX cY zoom w h ts).height = tilesNeeded h ts * ts := by
  unfold assembled assembleTiles
  exact foldl_pasteTile_width _ _ _ _ _ _ _

/-- A `pasteTile` step leaves a pixel unchanged if the step is a pole
skip, or if the pixel lies outside the step's `ts × ts` tile cell
(tile bitmaps are at most `ts × ts`). -/
theorem pasteTile_px_eq (fetch : ℤ → ℤ → Option Img) (zoom : ℕ)
    (stx sty ts : ℤ) (canvas : Img) (p : ℤ × ℤ) (x y : ℤ)
    (hfetch : ∀ i j t, fetch i j = some t → t.width ≤ ts ∧ t.height ≤ ts)
    (h : (sty + p.2 < 0 ∨ (2 : ℤ) ^ zoom ≤ sty + p.2) ∨
      ¬(p.1 * ts ≤ x ∧ x < (p.1 + 1) * ts ∧ p.2 * ts ≤ y ∧ y < (p.2 + 1) * ts)) :
    (pasteTile fetch zoom stx sty ts canvas p).px x y = canvas.px x y := by
  unfold pasteTile
  split
  · rfl
  · rename_i hskip
    rcases h with h | h
    · exact absurd h hskip
    cases hf : fetch ((stx + p.1) % 2 ^ zoom) (sty + p.2) with
    | none => rfl
    | some t =>
      show (paste canvas t (p.1 * ts) (p.2 * ts)).px x y = canvas.px x y
      unfold paste
      simp only
      rw [if_neg]
      intro hcov
      rcases hfetch _ _ _ hf with ⟨htw, hth⟩
      exact h ⟨hcov.1, by linarith [hcov.2.1], hcov.2.2.1, by linarith [hcov.2.2.2]⟩

/-- Folding `pasteTile` leaves a pixel unchanged when every step either
skips or misses the pixel's tile cell. -/
theorem foldl_pasteTile_px_eq (fetch : ℤ → ℤ → Option Img) (zoom : ℕ)
    (stx sty ts : ℤ) (x y : ℤ) (l : List (ℤ × ℤ)) (canvas : Img)
    (hfetch : ∀ i j t, fetch i j = some t → t.width ≤ ts ∧ t.height ≤ ts)
    (hl : ∀ p ∈ l, (sty + p.2 < 0 ∨ (2 : ℤ) ^ zoom ≤ sty + p.2) ∨
      ¬(p.1 * ts ≤ x ∧ x < (p.1 + 1) * ts ∧ p.2 * ts ≤ y ∧ y < (p.2 + 1) * ts)) :
    (l.foldl (pasteTile fetch zoom stx sty ts) canvas).px x y = canvas.px x y := by
  induction l generalizing canvas with
  | nil => rfl
  | cons p l ih =>
    rw [List.foldl_cons]
    rw [ih _ fun q hq => hl q (List.mem_cons_of_mem p hq)]
    exact pasteTile_px_eq fetch zoom stx sty ts canvas p x y hfetch
      (hl p (List.mem_cons_self p l))

/-- Two fetch functions agreeing on every address a step would request
give identical folds. -/
theorem foldl_pasteTile_congr (fetch fetch' : ℤ → ℤ → Option Img) (zoom : ℕ)
    (stx sty ts : ℤ) (l : List (ℤ × ℤ)) (canvas : Img)
    (hl : ∀ p ∈ l, ¬(sty + p.2 < 0 ∨ (2 : ℤ) ^ zoom ≤ sty + p.2) →
      fetch ((stx + p.1) % 2 ^ zoom) (sty + p.2)
        = fetch' ((stx + p.1) % 2 ^ zoom) (sty + p.2)) :
    l.foldl (pasteTile fetch zoom stx sty ts) canvas
      = l.foldl (pasteTile fetch' zoom stx sty ts) canvas := by
  induction l generalizing canvas with
  | nil => rfl
  | cons p l ih =>
    rw [List.foldl_cons, List.foldl_cons]
    have hstep : pasteTile fetch zoom stx sty ts canvas p
        = pasteTile fetch' zoom stx sty ts canvas p := by
      unfold pasteTile
      split
      · rfl
      · rename_i hskip
        rw [hl p (List.mem_cons_self p l) hskip]
    rw [hstep]
    exact ih _ fun q hq => hl q (List.mem_cons_of_mem p hq)

/-- The grid holds `tilesX · tilesY` positions. -/
theorem gridPositions_length (tX tY : ℤ) :
    (gridPositions tX tY).length = tX.toNat * tY.toNat := by
  unfold gridPositions
  rw [List.length_flatMap]
  simp [Function.comp_def]

/-- At `dim = ts = 256`, two tiles are needed per axis. -/
theorem tilesNeeded_256 : tilesNeeded 256 256 = 2 := by
  norm_num [tilesNeeded]

/-- Grid start index for center tile coordinate `1.9` at 256 output,
256 tile size. -/
theorem startTileIdx_19_10 : startTileIdx ((19 : ℝ) / 10) 256 256 = 0 := by
  unfold startTileIdx
  rw [pytrunc_of_nonneg (by norm_num), tilesNeeded_256]
  norm_num

/-- Crop left edge for center tile coordinate `1.9` at 256 output,
256 tile size: `int(1.9 * 256) - 128 = 358`. -/
theorem cropLeft_19_10 : cropLeft ((19 : ℝ) / 10) 256 256 = 358 := by
  unfold cropLeft pixelOfCenter
  rw [startTileIdx_19_10, pytrunc_of_nonneg (by norm_num)]
  norm_num

/-- The projection of latitude 0, longitude 162 at zoom 1:
center tile coordinates `(1.9, 1)`. -/
theorem latLonToTile_lon162 : latLonToTile 0 162 1 = some ((19 : ℝ) / 10, 1) := by
  rw [latLonToTile_eq_some 162 1 (by norm_num) (by norm_num)]
  norm_num [Real.tan_zero, Real.cos_zero, Real.log_one, Prod.mk.injEq]

/-! ### Claim theorems -/

/-- Claim C1, as stated: for every latitude outside the Mercator-valid
range the projection fails.  Counterexample: at latitude 86 (outside
the range) the projection does not fail — `_lat_lon_to_tile` has no
latitude validation, so it returns a finite fractional coordinate. -/
theorem invalidCoordinate_claim_fails :
    85.0511 < |(86 : ℝ)| ∧ latLonToTile 86 0 1 ≠ none := by
  constructor
  · rw [abs_of_nonneg (by norm_num)]
    norm_num
  · rw [latLonToTile_eq_some 0 1 (by norm_num) (by norm_num)]
    exact Option.some_ne_none _

/-- Claim C1 (amended): for every latitude strictly between -90 and 90 —
including the latitudes outside the Mercator-valid range — the
projection does not fail; it returns finite fractional tile
coordinates.  (The code only fails, aborting to a null map, when the
logarithm argument `tan(latRad) + sec(latRad)` is non-positive, which
needs `|lat| > 90`.) -/
theorem projector_total_within_90 (lat lon : ℝ) (zoom : ℕ)
    (h1 : -90 < lat) (h2 : lat < 90) :
    (latLonToTile lat lon zoom).isSome := by
  rw [latLonToTile_eq_some lon zoom h1 h2]
  rfl

/-- Witness for `projector_total_within_90` at latitude 86, which is
outside the Mercator-valid range. -/
theorem projector_total_within_90_witness :
    (-90 : ℝ) < 86 ∧ (86 : ℝ) < 90 ∧ (latLonToTile 86 0 1).isSome :=
  ⟨by norm_num, by norm_num,
    projector_total_within_90 86 0 1 (by norm_num) (by norm_num)⟩

/-- Claim C2: for every latitude in the Mercator-valid range, every
longitude and every zoom, the projector returns exactly the fractional
(not rounded) Web-Mercator tile coordinates of the specification
formula. -/
theorem projector_matches_webMercator (lat lon : ℝ) (zoom : ℕ)
    (h : |lat| ≤ 85.0511) :
    latLonToTile lat lon zoom = some (webMercatorSpec lat lon zoom) := by
  rcases abs_le.mp h with ⟨hlo, hhi⟩
  have h1 : (-90 : ℝ) < lat := by
    have : (-(85.0511 : ℝ)) ≤ lat := hlo
    linarith
  have h2 : lat < 90 := by linarith
  rw [latLonToTile_eq_some lon zoom h1 h2]
  rfl

/-- Witness for `projector_matches_webMercator` at the origin. -/
theorem projector_matches_webMercator_witness :
    |(0 : ℝ)| ≤ 85.0511 ∧ latLonToTile 0 0 17 = some (webMercatorSpec 0 0 17) :=
  ⟨by norm_num, projector_matches_webMercator 0 0 17 (by norm_num)⟩

/-- Claim C8: the image reaching the encoding step is always exactly
`width × height`, for every fetch outcome (tile failures), center
(wraparound) and tile size: the crop box is
`(left, top, left + width, top + height)`. -/
theorem output_size_invariant (fetch : ℤ → ℤ → Option Img) (cX cY : ℝ)
    (zoom : ℕ) (w h ts : ℤ) (pinColor : Color) :
    ((renderPipeline fetch cX cY zoom w h ts pinColor).1).width = w ∧
    ((renderPipeline fetch cX cY zoom w h ts pinColor).1).height = h := by
  constructor <;>
    · simp only [renderPipeline, croppedImage, crop]
      omega

/-- Claim C9: `_draw_pin_marker` emits, in order, the drop-shadow
ellipse, the filled pin head with a white outline of width 2, the
downward triangle with apex at `(cx, cy)`, the inner white disk, and
the colored center dot; the head spans `2 · (size / 2)` horizontally
and `size · 2 / 3` vertically around `cx`, the inner disk spans
`2 · (size / 5)` and the dot `2 · (size / 8)`; the pipeline draws it at
the canvas center `(w / 2, h / 2)` with size 36, independently of the
fetched map content. -/
theorem marker_geometry (cx cy : ℤ) (color : Color) (size : ℤ) :
    drawPinMarker cx cy color size =
      [ Shape.ellipse (cx - size / 2 + 2) (cy - size + 2)
          (cx + size / 2 + 2) (cy - size + size * 2 / 3 + 2) (0, 0, 0, 60) none,
        Shape.ellipse (cx - size / 2) (cy - size)
          (cx + size / 2) (cy - size + size * 2 / 3) color
          (some ((255, 255, 255, 255), 2)),
        Shape.polygon
          [(cx - size / 2 / 2, cy - size + size / 3), (cx, cy),
           (cx + size / 2 / 2, cy - size + size / 3)] color,
        Shape.ellipse (cx - size / 5) (cy - size + size / 6)
          (cx + size / 5) (cy - size + size / 6 + size / 5 * 2)
          (255, 255, 255, 230) none,
        Shape.ellipse (cx - size / 8) (cy - size + size / 6 + (size / 5 - size / 8))
          (cx + size / 8) (cy - size + size / 6 + (size / 5 + size / 8)) color none ]
    ∧ (cx + size / 2) - (cx - size / 2) = 2 * (size / 2)
    ∧ (cy - size + size * 2 / 3) - (cy - size) = size * 2 / 3
    ∧ (cx + size / 5) - (cx - size / 5) = 2 * (size / 5)
    ∧ (cx + size / 8) - (cx - size / 8) = 2 * (size / 8)
    ∧ ∀ (fetch fetch' : ℤ → ℤ → Option Img) (cX cY cX' cY' : ℝ)
        (zoom zoom' : ℕ) (w h ts ts' : ℤ),
        (renderPipeline fetch cX cY zoom w h ts color).2
            = drawPinMarker (w / 2) (h / 2) color 36
          ∧ (renderPipeline fetch cX cY zoom w h ts color).2
            = (renderPipeline fetch' cX' cY' zoom' w h ts' color).2 :=
  ⟨rfl, by omega, by omega, by omega, by omega,
    fun _ _ _ _ _ _ _ _ _ _ _ _ => ⟨rfl, rfl⟩⟩

/-- Claim C10: in `generate_pdf`, a latitude or longitude that is `None`
or exactly `0` is falsy in Python, so the static-map generator is never
invoked and the map image stays null. -/
theorem zero_coordinate_skips_map {α : Type} (gen : ℚ → ℚ → Option α)
    (latitude longitude : Option ℚ)
    (h : latitude = some 0 ∨ longitude = some 0 ∨ latitude = none ∨ longitude = none) :
    generatePdfMapImage latitude longitude gen = none := by
  unfold generatePdfMapImage
  rcases h with h | h | h | h
  · subst h
    cases longitude with
    | none => rfl
    | some lo => exact if_pos (Or.inl rfl)
  · subst h
    cases latitude with
    | none => rfl
    | some la => exact if_pos (Or.inr rfl)
  · subst h
    cases longitude <;> rfl
  · subst h
    cases latitude <;> rfl

/-- Witness for `zero_coordinate_skips_map`: latitude exactly 0 (the
equator, geographically valid) with a generator that would otherwise
produce a map. -/
theorem zero_coordinate_skips_map_witness :
    ((some (0 : ℚ)) = some 0 ∨ (some (45 : ℚ)) = some 0 ∨
        (some (0 : ℚ)) = none ∨ (some (45 : ℚ)) = none)
    ∧ generatePdfMapImage (some (0 : ℚ)) (some (45 : ℚ))
        (fun la lo => some (la + lo)) = none :=
  ⟨Or.inl rfl,
    zero_coordinate_skips_map (fun la lo => some (la + lo))
      (some 0) (some 45) (Or.inl rfl)⟩

/-- Claim C3: for every output width, height and tile size, the
compositor uses `ceil(dim / tileSize) + 1` tiles per axis — the grid has
exactly `tilesX · tilesY` positions — and the assembled canvas measures
exactly `(tilesX · tileSize) × (tilesY · tileSize)`, starting from a
canvas pre-filled with the background color at every pixel. -/
theorem grid_sizing (fetch : ℤ → ℤ → Option Img) (cX cY : ℝ) (zoom : ℕ)
    (w h ts : ℤ) :
    tilesNeeded w ts = ⌈(w : ℚ) / (ts : ℚ)⌉ + 1
    ∧ tilesNeeded h ts = ⌈(h : ℚ) / (ts : ℚ)⌉ + 1
    ∧ (gridPositions (tilesNeeded w ts) (tilesNeeded h ts)).length
        = (tilesNeeded w ts).toNat * (tilesNeeded h ts).toNat
    ∧ (assembled fetch cX cY zoom w h ts).width = tilesNeeded w ts * ts
    ∧ (assembled fetch cX cY zoom w h ts).height = tilesNeeded h ts * ts
    ∧ ∀ x y, (Img.const (tilesNeeded w ts * ts) (tilesNeeded h ts * ts)
        background).px x y = background :=
  ⟨rfl, rfl, gridPositions_length _ _,
    (assembled_width fetch cX cY zoom w h ts).1,
    (assembled_width fetch cX cY zoom w h ts).2,
    fun _ _ => rfl⟩

/-- Claim C4: every fetched tile address has its x index wrapped modulo
`n = 2 ^ zoom` into `[0, n)` and its y index inside `[0, n)`; every
grid position whose y index is in range is fetched with the wrapped x
index; positions whose y index is out of range are skipped, so their
`ts × ts` region keeps the underlying canvas (background) value; and
the assembly depends on the fetcher only at the fetched addresses. -/
theorem wraparound_and_pole_skip (fetch fetch' : ℤ → ℤ → Option Img)
    (zoom : ℕ) (stx sty tX tY ts : ℤ) (canvas : Img) (hts : 0 < ts)
    (hfetch : ∀ i j t, fetch i j = some t → t.width ≤ ts ∧ t.height ≤ ts) :
    (∀ a ∈ fetchedAddresses zoom stx sty tX tY,
        0 ≤ a.1 ∧ a.1 < 2 ^ zoom ∧ 0 ≤ a.2 ∧ a.2 < 2 ^ zoom)
    ∧ (∀ p ∈ gridPositions tX tY, ¬(sty + p.2 < 0 ∨ (2 : ℤ) ^ zoom ≤ sty + p.2) →
        ((stx + p.1) % 2 ^ zoom, sty + p.2) ∈ fetchedAddresses zoom stx sty tX tY)
    ∧ (∀ tx ty x y, (sty + ty < 0 ∨ (2 : ℤ) ^ zoom ≤ sty + ty) →
        tx * ts ≤ x → x < (tx + 1) * ts → ty * ts ≤ y → y < (ty + 1) * ts →
        (assembleTiles fetch zoom stx sty ts tX tY canvas).px x y = canvas.px x y)
    ∧ ((∀ a ∈ fetchedAddresses zoom stx sty tX tY, fetch a.1 a.2 = fetch' a.1 a.2) →
        assembleTiles fetch zoom stx sty ts tX tY canvas
          = assembleTiles fetch' zoom stx sty ts tX tY canvas) := by
  have hn : (0 : ℤ) < 2 ^ zoom := pow_pos (by norm_num) zoom
  refine ⟨?_, ?_, ?_, ?_⟩
  · intro a ha
    rw [fetchedAddresses, List.mem_filterMap] at ha
    obtain ⟨p, _, hpa⟩ := ha
    split at hpa
    · exact absurd hpa (Option.noConfusion)
    · rename_i hskip
      push_neg at hskip
      cases hpa
      exact ⟨Int.emod_nonneg _ (ne_of_gt hn), Int.emod_lt_of_pos _ hn,
        by omega, by omega⟩
  · intro p hp hskip
    rw [fetchedAddresses, List.mem_filterMap]
    exact ⟨p, hp, by rw [if_neg hskip]⟩
  · intro tx ty x y hskip hx1 hx2 hy1 hy2
    unfold assembleTiles
    apply foldl_pasteTile_px_eq fetch zoom stx sty ts x y _ canvas hfetch
    intro p _
    by_cases hcov : p.1 * ts ≤ x ∧ x < (p.1 + 1) * ts ∧ p.2 * ts ≤ y ∧ y < (p.2 + 1) * ts
    · left
      have hpx : p.1 = tx := by
        by_contra hne
        rcases lt_or_gt_of_ne hne with hlt | hgt
        · have := mul_le_mul_of_nonneg_right (show p.1 + 1 ≤ tx by omega) hts.le
          linarith [hcov.2.1]
        · have := mul_le_mul_of_nonneg_right (show tx + 1 ≤ p.1 by omega) hts.le
          linarith [hcov.1]
      have hpy : p.2 = ty := by
        by_contra hne
        rcases lt_or_gt_of_ne hne with hlt | hgt
        · have := mul_le_mul_of_nonneg_right (show p.2 + 1 ≤ ty by omega) hts.le
          linarith [hcov.2.2.2]
        · have := mul_le_mul_of_nonneg_right (show ty + 1 ≤ p.2 by omega) hts.le
          linarith [hcov.2.2.1]
      rw [hpy]
      exact hskip
    · right
      exact hcov
  · intro hagree
    unfold assembleTiles
    apply foldl_pasteTile_congr
    intro p hp hskip
    exact hagree ((stx + p.1) % 2 ^ zoom, sty + p.2)
      (by rw [fetchedAddresses, List.mem_filterMap]; exact ⟨p, hp, by rw [if_neg hskip]⟩)

/-- Witness for `wraparound_and_pole_skip`: at zoom 0 with start row 1,
the single grid row lies past the pole (y index 1 is outside `[0, 1)`),
so the pixel region keeps the background canvas value. -/
theorem wraparound_and_pole_skip_witness :
    (assembleTiles (fun _ _ => none) 0 0 1 256 1 1
        (Img.const 256 256 background)).px 0 0
      = (Img.const 256 256 background).px 0 0 :=
  ((wraparound_and_pole_skip (fun _ _ => none) (fun _ _ => none) 0 0 1 1 1 256
      (Img.const 256 256 background) (by norm_num)
      (fun _ _ _ ht => Option.noConfusion ht)).2.2.1) 0 0 0 0
    (Or.inr (by norm_num)) (by norm_num) (by norm_num) (by norm_num) (by norm_num)

/-- Claim C5: the crop rectangle is
`left = int((centerX − startTileX) · ts) − w // 2` (likewise for the
top), with `right = left + w` and `bottom = top + h`, so the cropped
image measures exactly `w × h`. -/
theorem crop_rect_formulas (fetch : ℤ → ℤ → Option Img) (cX cY : ℝ)
    (zoom : ℕ) (w h ts : ℤ) :
    cropLeft cX w ts = pytrunc ((cX - startTileIdx cX w ts) * ts) - w / 2
    ∧ cropLeft cY h ts = pytrunc ((cY - startTileIdx cY h ts) * ts) - h / 2
    ∧ (croppedImage fetch cX cY zoom w h ts).width = w
    ∧ (croppedImage fetch cX cY zoom w h ts).height = h := by
  refine ⟨rfl, rfl, ?_, ?_⟩ <;>
    · simp only [croppedImage, crop]
      omega

/-- Claim C6, as stated: the crop rectangle always lies inside the
assembled canvas, and if it did not the cropper would fail.
Counterexample: for the request lat 0, lon 162, zoom 1, 256 × 256 the
projected center is tile `(1.9, 1)`, the crop right edge `358 + 256`
exceeds the 512-pixel canvas, and the cropper does not fail — the
pipeline still returns a 256 × 256 image (Pillow zero-pads). -/
theorem canvasTooSmall_claim_fails :
    latLonToTile 0 162 1 = some ((19 : ℝ) / 10, 1)
    ∧ (assembled (fun _ _ => none) ((19 : ℝ) / 10) 1 1 256 256 256).width
        < cropLeft ((19 : ℝ) / 10) 256 256 + 256
    ∧ generateStaticMapBase64 (fun _ _ => none) 0 162 1 256 256 (239, 68, 68, 255)
        = some (renderPipeline (fun _ _ => none) ((19 : ℝ) / 10) 1 1 256 256 256
            (239, 68, 68, 255))
    ∧ (renderPipeline (fun _ _ => none) ((19 : ℝ) / 10) 1 1 256 256 256
        (239, 68, 68, 255)).1.width = 256
    ∧ (renderPipeline (fun _ _ => none) ((19 : ℝ) / 10) 1 1 256 256 256
        (239, 68, 68, 255)).1.height = 256 := by
  refine ⟨latLonToTile_lon162, ?_, ?_, ?_, ?_⟩
  · rw [(assembled_width _ _ _ _ _ _ _).1, tilesNeeded_256, cropLeft_19_10]
    norm_num
  · simp only [generateStaticMapBase64]
    rw [latLonToTile_lon162, Option.map_some']
    rfl
  · simp only [renderPipeline, croppedImage, crop]
    omega
  · simp only [renderPipeline, croppedImage, crop]
    omega

/-- Claim C6 (amended): when the crop rectangle does not lie fully
inside the assembled canvas, the cropper does not fail: it zero-fills
every pixel sampled outside the canvas and still returns an image of
exactly `w × h`; the pipeline proceeds normally. -/
theorem crop_zero_pads_outside_canvas (fetch : ℤ → ℤ → Option Img)
    (cX cY : ℝ) (zoom : ℕ) (w h ts x y : ℤ)
    (hout : cropLeft cX w ts + x < 0
      ∨ (assembled fetch cX cY zoom w h ts).width ≤ cropLeft cX w ts + x
      ∨ cropLeft cY h ts + y < 0
      ∨ (assembled fetch cX cY zoom w h ts).height ≤ cropLeft cY h ts + y) :
    (croppedImage fetch cX cY zoom w h ts).width = w
    ∧ (croppedImage fetch cX cY zoom w h ts).height = h
    ∧ (croppedImage fetch cX cY zoom w h ts).px x y = zeroPixel := by
  refine ⟨?_, ?_, ?_⟩
  · simp only [croppedImage, crop]
    omega
  · simp only [croppedImage, crop]
    omega
  · simp only [croppedImage, crop]
    rw [if_neg]
    rintro ⟨i1, i2, i3, i4⟩
    rcases hout with hc | hc | hc | hc <;> omega

/-- Witness for `crop_zero_pads_outside_canvas` at the concrete
overflowing request of `canvasTooSmall_claim_fails`: pixel `(300, 0)`
of the crop samples column `658` of the 512-wide canvas and is
zero-filled, while the output is still 256 × 256. -/
theorem crop_zero_pads_outside_canvas_witness :
    (croppedImage (fun _ _ => none) ((19 : ℝ) / 10) 1 1 256 256 256).width = 256
    ∧ (croppedImage (fun _ _ => none) ((19 : ℝ) / 10) 1 1 256 256 256).height = 256
    ∧ (croppedImage (fun _ _ => none) ((19 : ℝ) / 10) 1 1 256 256 256).px 300 0
        = zeroPixel := by
  apply crop_zero_pads_outside_canvas
  right
  left
  rw [(assembled_width _ _ _ _ _ _ _).1, tilesNeeded_256, cropLeft_19_10]
  norm_num

/-- Claim C7: for every fetch-failure pattern — the fetcher returns an
unavailable result instead of raising, so also when `k` of the `n`
required tiles fail — the pipeline completes with an image of exactly
`w × h` and the marker commands drawn; it never aborts once the
projection has succeeded. -/
theorem fetch_failure_tolerance (fetch : ℤ → ℤ → Option Img)
    (lat lon : ℝ) (zoom : ℕ) (w h : ℤ) (pinColor : Color)
    (h1 : -90 < lat) (h2 : lat < 90) :
    ∃ img cmds,
      generateStaticMapBase64 fetch lat lon zoom w h pinColor = some (img, cmds)
      ∧ img.width = w ∧ img.height = h
      ∧ cmds = drawPinMarker (w / 2) (h / 2) pinColor 36 := by
  simp only [generateStaticMapBase64]
  rw [latLonToTile_eq_some lon zoom h1 h2, Option.map_some']
  refine ⟨_, _, rfl, ?_, ?_, rfl⟩ <;>
    · simp only [renderPipeline, croppedImage, crop]
      omega

/-- Witness for `fetch_failure_tolerance` at the specification's
scenario coordinates, with a fetcher for which exactly one tile
succeeds and all others fail. -/
theorem fetch_failure_tolerance_witness :
    (-90 : ℝ) < -12.545363 ∧ (-12.545363 : ℝ) < 90 ∧
    ∃ img cmds,
      generateStaticMapBase64
          (fun i j => if i = 0 ∧ j = 0 then some (Img.const 256 256 background)
            else none)
          (-12.545363) (-55.754127) 17 400 400 (239, 68, 68, 255)
        = some (img, cmds)
      ∧ img.width = 400 ∧ img.height = 400
      ∧ cmds = drawPinMarker (400 / 2) (400 / 2) (239, 68, 68, 255) 36 :=
  ⟨by norm_num, by norm_num,
    fetch_failure_tolerance _ _ _ _ _ _ _ (by norm_num) (by norm_num)⟩

end PowerScan
